import Mathlib

/-!
Verification of the decklist-audit pipeline (`src/decklist_audit.py`).

A shallow embedding of the reconciliation pipeline of the decklist auditor:
name normalization (`clean_card_name`), the EDHREC lookup-key derivation and
fetch (`get_edhrec_data`), the Scryfall image fetch (`get_scryfall_image`)
together with its TTL cache, and the tab-1/tab-2 reconciliation computations
(missing-card lists, matches, unique picks, match score).

Strings are modelled as Lean `String`/`List Char`; the Python regexes used by
the source are unfolded into explicit character-level scanning functions with
the same leftmost-match semantics.  The regex class `\s` and `str.strip()` are
modelled over the ASCII whitespace characters; `str.lower()` is modelled by
`Char.toLower` (these coincide with Python on the ASCII inputs at issue).
`re.sub(r'\s*\([^)]*\).*$', ...)` is modelled on newline-free lines, which is
exact for this program: every line it is applied to comes from splitting the
raw input on newlines.
-/

namespace DecklistAudit

/-- ASCII whitespace, the characters matched by Python's regex class `\s`
(and stripped by `str.strip()`) on ASCII text. -/
def isSpace (c : Char) : Bool :=
  c = ' ' || c = '\t' || c = '\n' || c = '\x0b' || c = '\x0c' || c = '\r'

/-- Python `str.strip()` on ASCII text: drop whitespace from both ends. -/
def pstrip (s : List Char) : List Char :=
  ((s.dropWhile isSpace).reverse.dropWhile isSpace).reverse

/-- Model of `re.sub(r'^\d+x?\s+', '', line)`: if the line starts with one or more
digits, then an optional `x`, then at least one whitespace character, remove
that prefix; otherwise leave the line unchanged. -/
def stripQty (s : List Char) : List Char :=
  let d := s.takeWhile Char.isDigit
  let r := s.dropWhile Char.isDigit
  if d.isEmpty then s
  else
    match r with
    | 'x' :: r2 =>
      if (r2.takeWhile isSpace).isEmpty then
        -- backtrack on `x?`: without the `x`, the next char is `x`, not
        -- whitespace, so `\s+` fails and the whole pattern fails to match
        s
      else r2.dropWhile isSpace
    | _ =>
      if (r.takeWhile isSpace).isEmpty then s else r.dropWhile isSpace

/-- Test whether `\s*\([^)]*\).*$` matches starting at this position.  After optional
whitespace there must be a `(` with some `)` later (`[^)]*` also crosses
nested `(`s, and `.*$` absorbs the rest of a newline-free line). -/
def parenMatchHere (s : List Char) : Bool :=
  match s.dropWhile isSpace with
  | '(' :: r => r.contains ')'
  | _ => false

/-- Model of `re.sub(r'\s*\([^)]*\).*$', '', line)` on a newline-free line: delete from
the leftmost position where the pattern matches to the end of the line. -/
def stripParen : List Char → List Char
  | [] => []
  | c :: r => if parenMatchHere (c :: r) then [] else c :: stripParen r

/-- Normalizer `clean_card_name` (src/decklist_audit.py lines 44-46):
`line = re.sub(r'^\d+x?\s+', '', line).strip()` followed by
`return re.sub(r'\s*\([^)]*\).*$', '', line).strip()`. -/
def clean_card_name (line : String) : String :=
  let l1 := pstrip (stripQty line.data)
  String.mk (pstrip (stripParen l1))

/-- Deck construction `user_deck` (line 80): split the raw textarea input on newlines, keep the
lines that are non-blank after stripping, and normalize each kept line. -/
def build_user_deck (raw : String) : List String :=
  ((raw.splitOn "\n").filter (fun l => !(pstrip l.data).isEmpty)).map clean_card_name

/-- Character class kept by `re.sub(r'[^a-z0-9\s-]', '', ...)`: lowercase
ASCII letters, digits, whitespace, and hyphen. -/
def keyKeep (c : Char) : Bool :=
  ('a' ≤ c && c ≤ 'z') || ('0' ≤ c && c ≤ '9') || isSpace c || c = '-'

/-- The EDHREC lookup key (line 36):
`re.sub(r'[^a-z0-9\s-]', '', commander_name.lower()).replace(" ", "-")` —
lowercase, delete every character outside the kept class, then replace each
space character (only `' '`, not other whitespace) by a hyphen. -/
def edhrec_key (commander_name : String) : String :=
  String.mk
    (((commander_name.data.map Char.toLower).filter keyKeep).map
      (fun c => if c = ' ' then '-' else c))

/-! ## Recommendation document and reconciliation -/

/-- One entry of a `cardviews` list: an object with a `name` field. -/
structure Cardview where
  name : String
deriving DecidableEq, Repr

/-- One entry of `container.json_dict.cardlists`: a category with a `header`
label and a `cardviews` list.  `cl.get('header', '')` / `cl.get('cardviews',
[])` are modelled by total fields whose value is the Python default when the
key is absent. -/
structure Cardlist where
  header : String
  cardviews : List Cardview
deriving DecidableEq, Repr

/-- Flattened name set `edhrec_names` (line 94): the set of all recommended card names across
every category, modelled as membership in the flattened name list. -/
def edhrec_names (cardlists : List Cardlist) : List String :=
  cardlists.flatMap (fun cl => cl.cardviews.map (·.name))

/-- The per-category missing list (line 111): the recommended names of one
category that do not occur in the user deck, in document order. -/
def missingFor (user_deck : List String) (cl : Cardlist) : List String :=
  (cl.cardviews.map (·.name)).filter (fun n => !user_deck.contains n)

/-- The tab-1 loop (lines 108-119): for each category whose `header` is in
`target_cats`, emit `(header, missing)` when the missing list is non-empty;
all other categories contribute nothing. -/
def tab1_missing (cardlists : List Cardlist) (target_cats user_deck : List String) :
    List (String × List String) :=
  cardlists.filterMap (fun cl =>
    if target_cats.contains cl.header then
      let missing := missingFor user_deck cl
      if missing.isEmpty then none else some (cl.header, missing)
    else none)

/-- Flat list `all_missing` (lines 106-113): the concatenation of the emitted missing
lists, in document order. -/
def all_missing (cardlists : List Cardlist) (target_cats user_deck : List String) :
    List String :=
  (tab1_missing cardlists target_cats user_deck).flatMap (·.2)

/-- Tab-2 `matches` (line 128): `sorted([c for c in user_deck if c in edhrec_names])`
— duplicates in the user deck are preserved. -/
def matches' (user_deck names : List String) : List String :=
  (user_deck.filter (fun c => names.contains c)).mergeSort (fun a b => a ≤ b)

/-- Tab-2 `unique` (line 129): `sorted([c for c in user_deck if c not in
edhrec_names])` — duplicates in the user deck are preserved. -/
def unique (user_deck names : List String) : List String :=
  (user_deck.filter (fun c => !names.contains c)).mergeSort (fun a b => a ≤ b)

/-- The match-score ratio of line 132, `len(matches)/len(user_deck)` (the
displayed metric multiplies it by 100).  In Python the division raises
`ZeroDivisionError` when `user_deck` is empty; here the rational division is
total, and the error condition is captured by the denominator
`user_deck.length` being zero exactly for the empty deck. -/
def match_score (user_deck names : List String) : ℚ :=
  ((matches' user_deck names).length : ℚ) / (user_deck.length : ℚ)

/-! ## Remote clients

The network is modelled by passing the outcome of each HTTP attempt as an
explicit value: `failure` is a timeout/transport error raised by
`requests.get` (or anything else the bare `except` catches before a response
exists), and `response status body` is a completed response whose `.json()`
parse result is `body` (`Except.error` when parsing raises). -/

/-- Outcome of one `requests.get` attempt with body type `β`. -/
inductive HttpAttempt (β : Type) where
  | failure
  | response (status : Nat) (body : Except Unit β)
deriving Repr

/-- Fetch `get_edhrec_data` (lines 35-42), network behaviour: a single
`requests.get`; on status 200 return the parsed body, on any other status
return `None`, and on timeout/transport/parse failure the bare `except`
returns `None`.  The function consumes attempt 0 of the attempt sequence
`net` and no other — there is no retry. -/
def get_edhrec_data {β : Type} (net : Nat → HttpAttempt β) : Option β :=
  match net 0 with
  | .failure => none
  | .response status body =>
    if status = 200 then
      match body with
      | .ok d => some d
      | .error _ => none
    else none

/-- Value of `data['image_uris']` or a face's `image_uris`: an object that may or may
not carry a `normal` key. -/
structure ImageUris where
  normal : Option String
deriving DecidableEq, Repr

/-- A parsed Scryfall card body: the two keys the code inspects, each absent
(`none`) or present. One entry of `card_faces` may itself lack `image_uris`. -/
structure ScryfallFace where
  image_uris : Option ImageUris
deriving DecidableEq, Repr

/-- A parsed Scryfall response body. -/
structure ScryfallCard where
  image_uris : Option ImageUris
  card_faces : Option (List ScryfallFace)
deriving DecidableEq, Repr

/-- The sentinel unknown-image URL of line 31. -/
def unknown_image : String := "https://errors.scryfall.com/unknown.jpg"

/-- The body of `get_scryfall_image` (lines 19-33) after the rate-limit sleep,
as a function of the HTTP attempt outcome.  Every dictionary/index access that
can raise (`['normal']`, `card_faces[0]`) lands in the bare `except`, which
returns `None`; a non-200 response and a 200 response with neither image key
return the sentinel URL. -/
def get_scryfall_image (att : HttpAttempt ScryfallCard) : Option String :=
  match att with
  | .failure => none
  | .response status body =>
    if status = 200 then
      match body with
      | .error _ => none
      | .ok data =>
        match data.image_uris with
        | some uris =>
          match uris.normal with
          | some u => some u
          | none => none
        | none =>
          match data.card_faces with
          | some faces =>
            match faces with
            | [] => none
            | f :: _ =>
              match f.image_uris with
              | some uris2 =>
                match uris2.normal with
                | some u => some u
                | none => none
              | none => none
          | none => some unknown_image
    else some unknown_image

/-! ## Metadata cache

`get_scryfall_image` is decorated with `@st.cache_data(show_spinner=False,
ttl=3600)` (line 18).  The decorator's memoisation is streamlit library
behaviour, not code under src/, so it is modelled from the spec here. -/

/-- A metadata-cache entry: the card name it is keyed by, the time the entry
was stored, and the cached fetch result. -/
structure CacheEntry where
  name : String
  storedAt : Nat
  value : Option String
deriving DecidableEq, Repr

/-- Modelled from the spec: the cache lookup performed by `st.cache_data`
(library code absent from src/) — return the stored value for this name
while its age is below the TTL, and miss otherwise.  Per the spec, entries
expire independently by timestamp. -/
def cacheGet (entries : List CacheEntry) (ttl now : Nat) (name : String) :
    Option (Option String) :=
  match entries.find? (fun e => e.name = name && now < e.storedAt + ttl) with
  | some e => some e.value
  | none => none

/-- Outcome of one call to the cached `get_scryfall_image`: the value
returned to the caller, the cache afterwards, how many network requests were
issued, and the rate-limit delay slept (in time units, `0.1` per miss). -/
structure CachedFetch where
  value : Option String
  entries : List CacheEntry
  networkCalls : Nat
  delay : ℚ
deriving Repr

/-- Modelled from the spec: `@st.cache_data(ttl=3600)` applied to
`get_scryfall_image` (lines 18-21); the memoisation itself is streamlit
library code absent from src/.  On a hit the stored value is returned with
no sleep and no network request; on a miss the wrapped body runs —
`time.sleep(0.1)`, then one `requests.get` attempt (`att`) — and the result
is stored with the same TTL whichever branch of the body produced it. -/
def get_scryfall_image_cached (entries : List CacheEntry) (now : Nat)
    (name : String) (att : HttpAttempt ScryfallCard) : CachedFetch :=
  match cacheGet entries 3600 now name with
  | some v => ⟨v, entries, 0, 0⟩
  | none => ⟨get_scryfall_image att, ⟨name, now, get_scryfall_image att⟩ :: entries, 1, 1/10⟩

/-! ## Spec-side reformulations

Definitions following the spec's words, for refinement comparison against the
definitions traced from the source. -/

/-- The match score as the spec words it: count of matches among the deck's
DISTINCT canonical names over the count of distinct deck names.  Stated for
refinement comparison with `match_score`. -/
def spec_match_score (user_deck names : List String) : ℚ :=
  ((user_deck.toFinset.filter (fun c => c ∈ names)).card : ℚ) /
    (user_deck.toFinset.card : ℚ)

/-- Scanner for `collapseWs`: the flag records whether the scan is inside a
whitespace run whose single hyphen has already been emitted. -/
def collapseWsAux : Bool → List Char → List Char
  | _, [] => []
  | inRun, c :: r =>
    if isSpace c then
      if inRun then collapseWsAux true r else '-' :: collapseWsAux true r
    else c :: collapseWsAux false r

/-- Replace each maximal run of whitespace by a single hyphen. -/
def collapseWs (s : List Char) : List Char :=
  collapseWsAux false s

/-- The lookup key as the spec words it: lowercase, remove every character
outside the kept class, then replace each whitespace RUN by a single hyphen.
Stated for refinement comparison with `edhrec_key`. -/
def spec_edhrec_key (commander_name : String) : String :=
  String.mk (collapseWs ((commander_name.data.map Char.toLower).filter keyKeep))

/-! ## Helper lemmas -/

theorem matches'_perm (user_deck names : List String) :
    (matches' user_deck names).Perm
      (user_deck.filter (fun c => names.contains c)) :=
  List.mergeSort_perm _ _

theorem unique_perm (user_deck names : List String) :
    (unique user_deck names).Perm
      (user_deck.filter (fun c => !names.contains c)) :=
  List.mergeSort_perm _ _

theorem length_matches' (user_deck names : List String) :
    (matches' user_deck names).length =
      (user_deck.filter (fun c => names.contains c)).length :=
  (matches'_perm user_deck names).length_eq

theorem mergeSort_of_sorted {l : List String} (h : List.Sorted (· ≤ ·) l) :
    l.mergeSort (fun a b => a ≤ b) = l :=
  List.mergeSort_eq_self h

theorem filterMap_if_eq_map_filter {α β : Type} (p : α → Bool) (g : α → β)
    (l : List α) :
    l.filterMap (fun a => if p a then some (g a) else none) = (l.filter p).map g := by
  induction l with
  | nil => rfl
  | cons a t ih =>
    rw [List.filterMap_cons, List.filter_cons]
    cases h : p a
    · simp [ih]
    · simp [ih]

theorem matches'_eval_AAB :
    matches' ["A", "A", "B"] ["A"] = ["A", "A"] := by
  unfold matches'
  rw [show (["A", "A", "B"] : List String).filter
        (fun c => (["A"] : List String).contains c) = ["A", "A"] from rfl]
  exact mergeSort_of_sorted (by simp [List.sorted_cons])

theorem matches'_eval_AA :
    matches' ["A", "A"] ["A"] = ["A", "A"] := by
  unfold matches'
  rw [show (["A", "A"] : List String).filter
        (fun c => (["A"] : List String).contains c) = ["A", "A"] from rfl]
  exact mergeSort_of_sorted (by simp [List.sorted_cons])

/-! ## Claims -/

/-- C1, counterexample: on the deck `A, A, B` (two copies of `A`) against the
recommendation set `{A}`, the score computed by the code,
`len(matches)/len(user_deck) = 2/3`, differs from the score the claim
describes, `count(distinct matches)/count(distinct deck names) = 1/2` — the
code counts duplicates in both numerator and denominator. -/
theorem C1_counterexample :
    match_score ["A", "A", "B"] ["A"] ≠ spec_match_score ["A", "A", "B"] ["A"] := by
  have h1 : match_score ["A", "A", "B"] ["A"] = 2 / 3 := by
    unfold match_score
    rw [matches'_eval_AAB]
    norm_num
  have h2 : spec_match_score ["A", "A", "B"] ["A"] = 1 / 2 := by
    unfold spec_match_score
    rw [show (Finset.filter (fun c => c ∈ (["A"] : List String))
          (["A", "A", "B"] : List String).toFinset).card = 1 from by decide,
        show ((["A", "A", "B"] : List String).toFinset).card = 2 from by decide]
    norm_num
  rw [h1, h2]
  norm_num

/-- C1, amended: the match score equals the length of the duplicate-preserving
matches list divided by the raw length of the user deck (the non-blank line
count, duplicates included), not a ratio of distinct counts; the denominator
is zero exactly when the user deck is empty, which is the division-by-zero
error condition callers must guard against. -/
theorem C1_amended (user_deck names : List String) :
    match_score user_deck names =
      ((user_deck.filter (fun c => names.contains c)).length : ℚ) /
        (user_deck.length : ℚ)
    ∧ (((user_deck.length : ℚ) = 0) ↔ user_deck = []) := by
  constructor
  · unfold match_score
    rw [length_matches']
  · simp

/-- C2, counterexample: on the deck `A, A` against the recommendation set
`{A}`, the matches list is `[A, A]`, which repeats an element, so the matches
list is not a duplicate-free subset of the deck's distinct names as the claim
states. -/
theorem C2_counterexample : ¬ (matches' ["A", "A"] ["A"]).Nodup := by
  rw [matches'_eval_AA]
  decide

/-- C2, amended: the matches and unique-picks lists preserve deck duplicates,
but as sets they still partition the deck's distinct canonical names: the
union of their element sets is the set of distinct deck names, their
intersection is empty, and each list is sorted lexicographically. -/
theorem C2_amended (user_deck names : List String) :
    (matches' user_deck names).toFinset ∪ (unique user_deck names).toFinset =
      user_deck.toFinset
    ∧ (matches' user_deck names).toFinset ∩ (unique user_deck names).toFinset = ∅
    ∧ List.Sorted (· ≤ ·) (matches' user_deck names)
    ∧ List.Sorted (· ≤ ·) (unique user_deck names) := by
  have hm := List.toFinset_eq_of_perm _ _ (matches'_perm user_deck names)
  have hu := List.toFinset_eq_of_perm _ _ (unique_perm user_deck names)
  refine ⟨?_, ?_, List.sorted_mergeSort' _, List.sorted_mergeSort' _⟩
  · rw [hm, hu]
    ext a
    simp [List.mem_filter]
    tauto
  · rw [hm, hu]
    ext a
    simp [List.mem_filter]
    tauto

/-- C3, counterexample: the quantity regex `^\d+x?\s+` is anchored at the
start of the raw line, and the line is only stripped of surrounding
whitespace after that substitution, so on the claimed input
`"  1 Command Tower (CMR) *F*"` (leading spaces) the quantity token `1` is
not removed and the normalizer yields `"1 Command Tower"`, not
`"Command Tower"`. -/
theorem C3_counterexample :
    clean_card_name "  1 Command Tower (CMR) *F*" ≠ "Command Tower" := by decide

/-- C3, amended: the first two claimed examples hold; the third yields
`"1 Command Tower"` because a leading quantity token is stripped only when
the digits start the raw line (leading whitespace defeats the anchored
regex), as the fourth conjunct shows for the same line without leading
whitespace; deletion runs from the first parenthetical to the end of the
line, surrounding whitespace is trimmed at each step, and the function is
total (no failure mode). -/
theorem C3_amended :
    clean_card_name "2x Sol Ring (C16)" = "Sol Ring"
    ∧ clean_card_name "Arcane Signet" = "Arcane Signet"
    ∧ clean_card_name "  1 Command Tower (CMR) *F*" = "1 Command Tower"
    ∧ clean_card_name "1 Command Tower (CMR) *F*" = "Command Tower"
    ∧ clean_card_name "12x Lightning Bolt" = "Lightning Bolt" := by decide

/-- C4: the tab-1 loop emits one `(header, missing)` pair exactly for the
categories whose label is in the allow-list and whose missing list is
non-empty, in document order, where the missing list is the category's
recommended names absent from the user deck in the original within-category
order (`missingFor`); categories outside the allow-list and categories whose
missing list is empty contribute nothing. -/
theorem C4_theorem (cardlists : List Cardlist) (target_cats user_deck : List String) :
    tab1_missing cardlists target_cats user_deck =
      (cardlists.filter (fun cl =>
          target_cats.contains cl.header && !(missingFor user_deck cl).isEmpty)).map
        (fun cl => (cl.header, missingFor user_deck cl)) := by
  have hfun : ∀ cl ∈ cardlists,
      (if target_cats.contains cl.header then
        (let missing := missingFor user_deck cl
         if missing.isEmpty then none else some (cl.header, missing))
       else none) =
      (if target_cats.contains cl.header && !(missingFor user_deck cl).isEmpty then
        some (cl.header, missingFor user_deck cl) else none) := by
    intro cl _
    cases h1 : target_cats.contains cl.header
    · simp
    · cases h2 : (missingFor user_deck cl).isEmpty <;> simp [h2]
  unfold tab1_missing
  exact (List.filterMap_congr hfun).trans (filterMap_if_eq_map_filter _ _ _)

/-- C5, counterexample: the code replaces each space character individually
with a hyphen (`.replace(" ", "-")`), so a run of two spaces yields two
hyphens, while the claim's derivation (replace each whitespace run with a
single hyphen) yields one: the two derivations disagree on the input
`"a  b"`. -/
theorem C5_counterexample :
    edhrec_key "a  b" = "a--b"
    ∧ spec_edhrec_key "a  b" = "a-b"
    ∧ edhrec_key "a  b" ≠ spec_edhrec_key "a  b" := by decide

/-- C5, amended: the lookup key is derived by lowercasing, removing every
character that is not a lowercase letter, digit, whitespace, or hyphen, and
then replacing each space character with a hyphen (a run of n spaces yields
n hyphens, and non-space whitespace is kept as-is rather than replaced);
derivation is deterministic (it is a pure function).  For an input that is
already lowercase and inside the kept class, the key is exactly the
per-character space-to-hyphen image of the input, and in general no space
character survives in the key. -/
theorem C5_amended (name : String)
    (h : ∀ c ∈ name.data, keyKeep c ∧ Char.toLower c = c) :
    edhrec_key name =
      String.mk (name.data.map (fun c => if c = ' ' then '-' else c))
    ∧ (∀ c ∈ (edhrec_key name).data, keyKeep c ∧ c ≠ ' ') := by
  have hmap : name.data.map Char.toLower = name.data :=
    (List.map_congr_left (fun c hc => (h c hc).2)).trans (List.map_id' _)
  have hfil : name.data.filter keyKeep = name.data :=
    List.filter_eq_self.mpr (fun c hc => (h c hc).1)
  have hkey : edhrec_key name =
      String.mk (name.data.map (fun c => if c = ' ' then '-' else c)) := by
    unfold edhrec_key
    rw [hmap, hfil]
  refine ⟨hkey, ?_⟩
  intro c hc
  rw [hkey] at hc
  obtain ⟨c0, hc0, rfl⟩ := List.mem_map.mp hc
  by_cases hsp : c0 = ' '
  · subst hsp
    exact ⟨by decide, by decide⟩
  · rw [if_neg hsp]
    exact ⟨(h c0 hc0).1, hsp⟩

/-- C5, witness for the amended theorem at a concrete commander name. -/
theorem C5_witness :
    (∀ c ∈ ("niv-mizzet parun" : String).data, keyKeep c ∧ Char.toLower c = c)
    ∧ (edhrec_key "niv-mizzet parun" =
        String.mk (("niv-mizzet parun" : String).data.map
          (fun c => if c = ' ' then '-' else c))
      ∧ (∀ c ∈ (edhrec_key "niv-mizzet parun").data, keyKeep c ∧ c ≠ ' ')) :=
  ⟨by decide, C5_amended "niv-mizzet parun" (by decide)⟩

/-- C6, counterexample: on a transport or parse failure the bare `except`
branch of `get_scryfall_image` returns `None`, not the sentinel unknown-image
value the claim describes. -/
theorem C6_counterexample :
    get_scryfall_image .failure = none
    ∧ get_scryfall_image .failure ≠ some unknown_image := by decide

/-- C6, amended: a transport failure and a parse failure on a 200 response
both make the metadata fetch return the null marker `None`, while the
sentinel unknown-image value is returned on every non-200 response; the
client never raises to its caller (the embedding is a total function). -/
theorem C6_amended (s : Nat) (b : Except Unit ScryfallCard) (hs : s ≠ 200) :
    get_scryfall_image .failure = none
    ∧ get_scryfall_image (.response 200 (.error ())) = none
    ∧ get_scryfall_image (.response s b) = some unknown_image := by
  refine ⟨rfl, rfl, ?_⟩
  simp [get_scryfall_image, hs]

/-- C6, witness for the amended theorem at status 404. -/
theorem C6_witness :
    (404 : Nat) ≠ 200
    ∧ (get_scryfall_image .failure = none
      ∧ get_scryfall_image (.response 200 (.error ())) = none
      ∧ get_scryfall_image (.response 404 (.error ())) = some unknown_image) :=
  ⟨by decide, C6_amended 404 (.error ()) (by decide)⟩

/-- C7: the recommendation client returns the not-found outcome (`none`)
exactly when the single attempt fails in transport, returns a non-200
status, or returns a 200 whose body fails to parse — all failure modes
collapse to the one outcome; it returns the parsed body exactly on a parsed
200 response; and its result depends only on attempt 0 of the network — one
request per call, no retry. -/
theorem C7_theorem {β : Type} (net net' : Nat → HttpAttempt β) :
    (get_edhrec_data net = none ↔
      (net 0 = .failure
        ∨ ∃ s b, net 0 = .response s b ∧ (s ≠ 200 ∨ b = .error ())))
    ∧ (∀ d : β, get_edhrec_data net = some d ↔ net 0 = .response 200 (.ok d))
    ∧ (net 0 = net' 0 → get_edhrec_data net = get_edhrec_data net') := by
  refine ⟨?_, ?_, fun h => by unfold get_edhrec_data; rw [h]⟩
  · unfold get_edhrec_data
    cases hn : net 0 with
    | failure => simp [hn]
    | response s b =>
      by_cases hs : s = 200
      · subst hs
        cases b with
        | ok d => simp [hn]
        | error e =>
          cases e
          simp [hn]
          exact ⟨200, .error (), ⟨rfl, rfl⟩, Or.inr rfl⟩
      · simp [hs, hn]
        exact ⟨s, b, ⟨rfl, rfl⟩, Or.inl hs⟩
  · intro d
    unfold get_edhrec_data
    cases hn : net 0 with
    | failure => simp [hn]
    | response s b =>
      by_cases hs : s = 200
      · subst hs
        cases b with
        | ok d2 => simp [hn]
        | error e =>
          cases e
          simp [hn]
      · simp [hs, hn]

/-- C7, witness: two networks that agree on attempt 0 (both fail there) give
the recommendation client the same result, instantiating the
single-attempt/no-retry conjunct. -/
theorem C7_witness :
    get_edhrec_data (fun _ => (HttpAttempt.failure : HttpAttempt Nat)) =
      get_edhrec_data (fun n =>
        if n = 0 then (HttpAttempt.failure : HttpAttempt Nat)
        else HttpAttempt.response 200 (Except.ok 5)) :=
  (C7_theorem _ _).2.2 rfl

/-- C8: starting from a cache with no live entry for the name, a first fetch
misses — it issues one network request, sleeps the 0.1 rate-limit delay, and
stores its result (whatever branch produced it, `att` is arbitrary) — and a
second fetch for the same name within the 3600-unit TTL returns the identical
value with zero network requests and zero delay. -/
theorem C8_theorem (entries : List CacheEntry) (now now' : Nat) (name : String)
    (att att' : HttpAttempt ScryfallCard)
    (hmiss : cacheGet entries 3600 now name = none)
    (hwin : now' < now + 3600) :
    (get_scryfall_image_cached entries now name att).entries =
        ⟨name, now, get_scryfall_image att⟩ :: entries
    ∧ (get_scryfall_image_cached entries now name att).networkCalls = 1
    ∧ (get_scryfall_image_cached entries now name att).delay = 1 / 10
    ∧ (get_scryfall_image_cached (get_scryfall_image_cached entries now name att).entries
        now' name att').value = (get_scryfall_image_cached entries now name att).value
    ∧ (get_scryfall_image_cached (get_scryfall_image_cached entries now name att).entries
        now' name att').networkCalls = 0
    ∧ (get_scryfall_image_cached (get_scryfall_image_cached entries now name att).entries
        now' name att').delay = 0 := by
  have hhit : cacheGet (⟨name, now, get_scryfall_image att⟩ :: entries) 3600 now' name =
      some (get_scryfall_image att) := by
    unfold cacheGet
    rw [List.find?_cons_of_pos]
    simp [hwin]
  simp [get_scryfall_image_cached, hmiss, hhit]

/-- C8, witness: empty cache, first fetch at time 0 down a failure branch,
second fetch at time 1800 down a different branch still hits the cache. -/
theorem C8_witness :
    cacheGet [] 3600 0 "Sol Ring" = none
    ∧ (1800 : Nat) < 0 + 3600
    ∧ ((get_scryfall_image_cached [] 0 "Sol Ring" .failure).entries =
          ⟨"Sol Ring", 0, get_scryfall_image .failure⟩ :: []
      ∧ (get_scryfall_image_cached [] 0 "Sol Ring" .failure).networkCalls = 1
      ∧ (get_scryfall_image_cached [] 0 "Sol Ring" .failure).delay = 1 / 10
      ∧ (get_scryfall_image_cached (get_scryfall_image_cached [] 0 "Sol Ring" .failure).entries
          1800 "Sol Ring" (.response 404 (.error ()))).value =
            (get_scryfall_image_cached [] 0 "Sol Ring" .failure).value
      ∧ (get_scryfall_image_cached (get_scryfall_image_cached [] 0 "Sol Ring" .failure).entries
          1800 "Sol Ring" (.response 404 (.error ()))).networkCalls = 0
      ∧ (get_scryfall_image_cached (get_scryfall_image_cached [] 0 "Sol Ring" .failure).entries
          1800 "Sol Ring" (.response 404 (.error ()))).delay = 0) :=
  ⟨rfl, by decide,
    C8_theorem [] 0 1800 "Sol Ring" .failure (.response 404 (.error ())) rfl (by decide)⟩

/-- C9: for a non-empty user deck the match score lies in [0, 1], because the
matches list is drawn from the deck itself, so its length never exceeds the
deck length used as the denominator. -/
theorem C9_theorem (user_deck names : List String) (h : user_deck ≠ []) :
    0 ≤ match_score user_deck names
    ∧ match_score user_deck names ≤ 1
    ∧ (matches' user_deck names).length ≤ user_deck.length := by
  have hlen : (matches' user_deck names).length ≤ user_deck.length := by
    rw [length_matches']
    exact List.length_filter_le _ _
  have hpos : (0 : ℚ) < (user_deck.length : ℚ) := by
    have h0 : 0 < user_deck.length := List.length_pos.mpr h
    exact_mod_cast h0
  refine ⟨?_, ?_, hlen⟩
  · unfold match_score
    positivity
  · unfold match_score
    rw [div_le_one hpos]
    exact_mod_cast hlen

/-- C9, witness at a one-card deck fully contained in the recommendation
set. -/
theorem C9_witness :
    (["Sol Ring"] : List String) ≠ []
    ∧ (0 ≤ match_score ["Sol Ring"] ["Sol Ring"]
      ∧ match_score ["Sol Ring"] ["Sol Ring"] ≤ 1
      ∧ (matches' ["Sol Ring"] ["Sol Ring"]).length ≤
          (["Sol Ring"] : List String).length) :=
  ⟨by decide, C9_theorem ["Sol Ring"] ["Sol Ring"] (by decide)⟩

/-- C10: a 200 response whose body has a `card_faces` key but whose first
face lacks `image_uris` — and likewise one whose faces list is empty — makes
the metadata fetch return the `None` marker through the catch-all exception
branch, not the sentinel unknown-image URL. -/
theorem C10_theorem :
    get_scryfall_image (.response 200 (.ok ⟨none, some [⟨none⟩]⟩)) = none
    ∧ get_scryfall_image (.response 200 (.ok ⟨none, some []⟩)) = none
    ∧ (none : Option String) ≠ some unknown_image := by decide

end DecklistAudit
